import Mathlib

/-!
Shallow embedding of `src/yolox/exp/yolox_base.py` (class `Exp`), the
experiment-configuration object of a YOLOX training setup, together with
proofs about its operations.

Modelling conventions:
* Python `int` division-results and sizes are `ℕ`/`ℤ`; float arithmetic on
  size ratios is modelled exactly over `ℚ` (`pyint` is Python's `int()`
  truncation toward zero).
* Python object identity is modelled by numeric ids drawn from an allocation
  counter `nid` threaded through the factory methods: every constructor call
  of the external library yields a fresh id.
* Attributes that may be absent from the object are `Option` fields
  (`none` = attribute missing / `None`).
* Calls into the external framework that can raise are parameterised by
  `Except Err Unit` oracles; an `Except.error e` oracle result models the
  framework raising exception `e` at that call site.
-/

/-- Python `int()` on an exact rational: truncation toward zero.  `Int.div`
on the reduced numerator and denominator is exactly toward-zero truncation. -/
def pyint (q : ℚ) : ℤ :=
  Int.tdiv q.num q.den

/-- Whether `sub` occurs at the head of `l`. -/
def leadsWith : List Char → List Char → Bool
  | [], _ => true
  | _ :: _, [] => false
  | a :: as, b :: bs => a == b && leadsWith as bs

/-- Whether `sub` occurs contiguously anywhere in `l`. -/
def hasSubList (sub : List Char) : List Char → Bool
  | [] => leadsWith sub []
  | c :: cs => leadsWith sub (c :: cs) || hasSubList sub cs

/-- Python's `sub in s` on strings: contiguous substring test. -/
def pySubstr (sub s : String) : Bool :=
  hasSubList sub.data s.data

/-- The value of a `weight`/`bias` attribute of a torch module: the attribute
can be missing entirely, can be Python `None`, or can be an `nn.Parameter`
(identified by its id). -/
inductive PAttr where
  | absent
  | pyNone
  | param (id : ℕ)
deriving DecidableEq

/-- One entry of `model.named_modules()`: the dotted name, whether the module
is an `nn.BatchNorm2d`, its `weight` and `bias` attributes, and any further
trainable parameters registered under other names. -/
structure NamedModule where
  name : String
  isBatchNorm2d : Bool
  weightAttr : PAttr
  biasAttr : PAttr
  otherParams : List ℕ
deriving DecidableEq

/-- Whether the attribute holds an actual `nn.Parameter`. -/
def PAttr.isParam : PAttr → Bool
  | .param _ => true
  | _ => false

/-- The parameter ids carried by one attribute. -/
def attrParams : PAttr → List ℕ
  | .param i => [i]
  | _ => []

/-- All trainable parameters owned by a module. -/
def moduleParams (m : NamedModule) : List ℕ :=
  attrParams m.weightAttr ++ attrParams m.biasAttr ++ m.otherParams

/-- All trainable parameters of a model, in `named_modules()` order. -/
def allParams (mods : List NamedModule) : List ℕ :=
  mods.flatMap moduleParams

/-- The loop body of `Exp.get_optimizer` for a single module `v` with name
`k` (yolox_base.py lines 221-227): the bias is appended to `pg2` when it is a
`Parameter`; then, if the module is a `BatchNorm2d` or `"bn" in k`, `v.weight`
is appended to `pg0` (raising `AttributeError` when the attribute is missing,
and appending Python `None` when the attribute is `None`); otherwise the
weight is appended to `pg1` when it is a `Parameter`.  Group entries are
`Option ℕ` so that an appended Python `None` is representable as `none`. -/
def moduleGroups (m : NamedModule) :
    Except String (List (Option ℕ) × List (Option ℕ) × List (Option ℕ)) :=
  let pg2 : List (Option ℕ) :=
    match m.biasAttr with
    | .param i => [some i]
    | _ => []
  if m.isBatchNorm2d || pySubstr "bn" m.name then
    match m.weightAttr with
    | .absent => .error "AttributeError"
    | .pyNone => .ok ([none], [], pg2)
    | .param i => .ok ([some i], [], pg2)
  else
    match m.weightAttr with
    | .param i => .ok ([], [some i], pg2)
    | _ => .ok ([], [], pg2)

/-- The full grouping loop of `Exp.get_optimizer`: per-module contributions
concatenated in `named_modules()` order, the first raising module aborting
the whole loop. -/
def paramGroups :
    List NamedModule →
    Except String (List (Option ℕ) × List (Option ℕ) × List (Option ℕ))
  | [] => .ok ([], [], [])
  | m :: rest =>
    match moduleGroups m with
    | .error e => .error e
    | .ok (a0, a1, a2) =>
      match paramGroups rest with
      | .error e => .error e
      | .ok (g0, g1, g2) => .ok (a0 ++ g0, a1 ++ g1, a2 ++ g2)

/-- The hyperparameter fields set by `Exp.__init__` (yolox_base.py lines
16-82) plus `seed` inherited from `BaseExp`.  Exact decimal literals are
modelled over `ℚ`. -/
structure HyperParams where
  num_classes : ℕ
  num_colors : ℕ
  depth : ℚ
  width : ℚ
  act : String
  data_num_workers : ℕ
  input_size : ℕ × ℕ
  multiscale_range : ℕ
  data_dir : Option String
  train_ann : String
  val_ann : String
  mosaic_prob : ℚ
  mosaic_scale : ℚ × ℚ
  enable_mixup : Bool
  mixup_prob : ℚ
  mixup_scale : ℚ × ℚ
  hsv_prob : ℚ
  gaussian_prob : ℚ
  flip_prob : ℚ
  degrees : ℚ
  translate : ℚ
  shear : ℚ
  perspective : ℚ
  warmup_epochs : ℕ
  max_epoch : ℕ
  warmup_lr : ℚ
  basic_lr_per_img : ℚ
  scheduler : String
  no_aug_epochs : ℕ
  min_lr_ratio : ℚ
  ema : Bool
  weight_decay : ℚ
  momentum : ℚ
  print_interval : ℕ
  eval_interval : ℕ
  exp_name : String
  test_size : ℕ × ℕ
  test_conf : ℚ
  nmsthre : ℚ
  seed : Option ℕ
deriving DecidableEq

/-- The default values written by `Exp.__init__`. -/
def Exp_init : HyperParams where
  num_classes := 8
  num_colors := 3
  depth := 1
  width := 1
  act := "silu"
  data_num_workers := 4
  input_size := (512, 640)
  multiscale_range := 5
  data_dir := none
  train_ann := "instances_train2017.json"
  val_ann := "instances_val2017.json"
  mosaic_prob := 1
  mosaic_scale := (1 / 10, 2)
  enable_mixup := false
  mixup_prob := 0
  mixup_scale := (1 / 2, 3 / 2)
  hsv_prob := 1
  gaussian_prob := 3 / 10
  flip_prob := 0
  degrees := 15
  translate := 1
  shear := 1
  perspective := 1 / 10
  warmup_epochs := 15
  max_epoch := 2000
  warmup_lr := 5 / 10000000
  basic_lr_per_img := 5 / 1000000
  scheduler := "yoloxwarmcos"
  no_aug_epochs := 20
  min_lr_ratio := 6 / 100
  ema := true
  weight_decay := 2 / 10000
  momentum := 9 / 10
  print_interval := 6
  eval_interval := 5
  exp_name := "yolox_base"
  test_size := (512, 640)
  test_conf := 2 / 10
  nmsthre := 3 / 10
  seed := none

/-- The `YOLOX(backbone, head)` object built by `get_model`: object identity
plus the list produced by `named_modules()`.  The external `init_yolo` /
`initialize_biases` calls mutate module internals (eps, momentum, bias
values) that are not tracked here; they do not change object identity. -/
structure ModelObj where
  id : ℕ
  modules : List NamedModule
deriving DecidableEq

/-- The `torch.optim.SGD` object built by `get_optimizer`: object identity,
the three parameter groups (`pg0` passed to the constructor, `pg1` added with
`weight_decay`, `pg2` added last), and the scalar hyperparameters used. -/
structure OptimizerObj where
  id : ℕ
  pg0 : List (Option ℕ)
  pg1 : List (Option ℕ)
  pg2 : List (Option ℕ)
  lr : ℚ
  momentum : ℚ
  weight_decay_pg1 : ℚ
deriving DecidableEq

/-- The train `DataLoader` built by `get_data_loader`: object identity, the
identity of the wrapped `MosaicDetection` dataset, and the batch size handed
to the `YoloBatchSampler`. -/
structure DataLoaderObj where
  id : ℕ
  datasetId : ℕ
  batch_size : ℕ
  num_workers : ℕ
  mosaic : Bool
deriving DecidableEq

/-- The eval `DataLoader` built by `get_eval_loader`. -/
structure EvalLoaderObj where
  id : ℕ
  datasetId : ℕ
  batch_size : ℕ
  sampler_distributed : Bool
deriving DecidableEq

/-- An exception raised by the external framework. -/
structure Err where
  msg : String
deriving DecidableEq

/-- The mutable state of an `Exp` instance: the hyperparameters from
`__init__`, the `random_size` attribute (absent by default, written by
`random_resize`), and the `model` / `optimizer` / `dataset` attributes
written by the factory methods (`none` models an absent attribute). -/
structure ExpState where
  hyper : HyperParams
  random_size : Option (ℤ × ℤ)
  model : Option ModelObj
  optimizer : Option OptimizerObj
  dataset : Option ℕ
deriving DecidableEq

/-- A freshly constructed `Exp()`: defaults, no cached handles. -/
def ExpState.fresh : ExpState where
  hyper := Exp_init
  random_size := none
  model := none
  optimizer := none
  dataset := none

/-- `Exp.get_model` (lines 84-101).  When `getattr(self, "model", None)` is
`None` a fresh `YOLOX(backbone, head)` is built (its `named_modules()` list,
`mods`, comes from the external library) and stored in `self.model`; the
cached object is returned otherwise.  Returns (new state, new allocation
counter, returned model). -/
def get_model (s : ExpState) (mods : List NamedModule) (nid : ℕ) :
    ExpState × ℕ × ModelObj :=
  match s.model with
  | some m => (s, nid, m)
  | none =>
    let m : ModelObj := { id := nid, modules := mods }
    ({ s with model := some m }, nid + 1, m)

/-- `Exp.get_optimizer` (lines 212-239).  When `"optimizer" not in
self.__dict__`: the learning rate is `warmup_lr` when `warmup_epochs > 0` and
`basic_lr_per_img * batch_size` otherwise; `self.model.named_modules()` is
grouped by `paramGroups` (an absent `self.model` raises `AttributeError`);
then `torch.optim.SGD(pg0, ...)` raises `ValueError` when `pg0` is empty and
`TypeError` when `pg0` contains a non-tensor (a Python `None` appended by the
bn branch) — the empty check of `Optimizer.__init__` runs before the
per-parameter tensor check; the two `add_param_group` calls raise `TypeError`
on a `None` entry (impossible by construction of `pg1`/`pg2`, but modelled)
and accept empty lists.  On success the optimizer is stored in
`self.optimizer`; the cached object is returned on later calls. -/
def get_optimizer (s : ExpState) (batch_size : ℕ) (nid : ℕ) :
    ExpState × ℕ × Except String OptimizerObj :=
  match s.optimizer with
  | some o => (s, nid, .ok o)
  | none =>
    let lr : ℚ :=
      if s.hyper.warmup_epochs > 0 then s.hyper.warmup_lr
      else s.hyper.basic_lr_per_img * batch_size
    match s.model with
    | none => (s, nid, .error "AttributeError")
    | some mdl =>
      match paramGroups mdl.modules with
      | .error e => (s, nid, .error e)
      | .ok (g0, g1, g2) =>
        if g0 = [] then
          (s, nid, .error "ValueError: optimizer got an empty parameter list")
        else if none ∈ g0 then
          (s, nid, .error "TypeError: optimizer can only optimize Tensors")
        else if none ∈ g1 then
          (s, nid, .error "TypeError: optimizer can only optimize Tensors")
        else if none ∈ g2 then
          (s, nid, .error "TypeError: optimizer can only optimize Tensors")
        else
          let o : OptimizerObj :=
            { id := nid, pg0 := g0, pg1 := g1, pg2 := g2, lr := lr,
              momentum := s.hyper.momentum,
              weight_decay_pg1 := s.hyper.weight_decay }
          ({ s with optimizer := some o }, nid + 1, .ok o)

/-- `Exp.get_data_loader` (lines 104-178).  A `COCODataset` is built, wrapped
in a `MosaicDetection`, and the wrapper is stored in `self.dataset` — there
is no cache check, so every call constructs new objects.  When
`is_distributed`, `batch_size` is floor-divided by the world size before
being handed to the `YoloBatchSampler`.  The three `Except Err Unit` oracles
are the outcomes of the `COCODataset`, `MosaicDetection` and `DataLoader`
constructor calls; a raise aborts the method at that point (mutations made
before the raise stay visible).  Returns (state, counter, outcome). -/
def get_data_loader (s : ExpState) (nid : ℕ) (batch_size : ℕ)
    (is_distributed : Bool) (world_size : ℕ) (no_aug : Bool)
    (cocoOk mosaicOk loaderOk : Except Err Unit) :
    ExpState × ℕ × Except Err DataLoaderObj :=
  match cocoOk with
  | .error e => (s, nid, .error e)
  | .ok _ =>
    match mosaicOk with
    | .error e => (s, nid + 1, .error e)
    | .ok _ =>
      let dsId := nid + 1
      let s1 := { s with dataset := some dsId }
      let bs := if is_distributed then batch_size / world_size else batch_size
      match loaderOk with
      | .error e => (s1, nid + 2, .error e)
      | .ok _ =>
        (s1, nid + 3,
          .ok { id := nid + 2, datasetId := dsId, batch_size := bs,
                num_workers := s.hyper.data_num_workers, mosaic := !no_aug })

/-- `Exp.get_eval_loader` (lines 256-284).  A validation `COCODataset` is
built (never stored on `self`); when `is_distributed`, `batch_size` is
floor-divided by the world size and a `DistributedSampler` is used, otherwise
a `SequentialSampler`; a `DataLoader` over the dataset is returned.  The two
oracles are the dataset and loader constructor outcomes. -/
def get_eval_loader (s : ExpState) (nid : ℕ) (batch_size : ℕ)
    (is_distributed : Bool) (world_size : ℕ)
    (dsOk loaderOk : Except Err Unit) :
    ExpState × ℕ × Except Err EvalLoaderObj :=
  match dsOk with
  | .error e => (s, nid, .error e)
  | .ok _ =>
    let bs := if is_distributed then batch_size / world_size else batch_size
    match loaderOk with
    | .error e => (s, nid + 1, .error e)
    | .ok _ =>
      (s, nid + 2,
        .ok { id := nid + 1, datasetId := nid, batch_size := bs,
              sampler_distributed := is_distributed })

/-- The body of `Exp.random_resize` (lines 180-199) as run by one rank, up to
but excluding the distributed barrier/broadcast: rank 0 computes
`size_factor = input_size[1] / input_size[0]`, installs the default
`self.random_size = (int(input_size[0] / 32) - multiscale_range,
int(input_size[0] / 32) + multiscale_range)` when the attribute is absent,
draws `size = random.randint(*self.random_size)` (the RNG is the oracle
`randInt`), and writes `(32 * size, 32 * int(size * size_factor))` into the
freshly allocated CUDA tensor; every other rank leaves its tensor at its
uninitialised contents `tensorInit`.  Returns (state, tensor contents). -/
def random_resize_step (s : ExpState) (rank : ℕ) (tensorInit : ℤ × ℤ)
    (randInt : ℤ × ℤ → ℤ) : ExpState × (ℤ × ℤ) :=
  if rank = 0 then
    let size_factor : ℚ :=
      (s.hyper.input_size.2 : ℚ) / (s.hyper.input_size.1 : ℚ)
    let upd : ExpState × (ℤ × ℤ) :=
      match s.random_size with
      | some rs => (s, rs)
      | none =>
        let min_size := pyint ((s.hyper.input_size.1 : ℚ) / 32) - (s.hyper.multiscale_range : ℤ)
        let max_size := pyint ((s.hyper.input_size.1 : ℚ) / 32) + (s.hyper.multiscale_range : ℤ)
        ({ s with random_size := some (min_size, max_size) }, (min_size, max_size))
    let sz := randInt upd.2
    (upd.1, (32 * sz, 32 * pyint ((sz : ℚ) * size_factor)))
  else
    (s, tensorInit)

/-- `Exp.random_resize` across a whole distributed job: every rank runs
`random_resize_step` on its own `Exp` copy, then, when `is_distributed`,
`dist.barrier()` and `dist.broadcast(tensor, 0)` run (their outcomes are the
two oracles; on success the broadcast overwrites every rank's tensor with
rank 0's) and each rank returns its tensor contents.  Returns (per-rank
states, per-rank returned `(height, width)` or the raised error). -/
def random_resize_world (states : ℕ → ExpState) (garbage : ℕ → ℤ × ℤ)
    (randInt : ℤ × ℤ → ℤ) (is_distributed : Bool)
    (barrierOk broadcastOk : Except Err Unit) :
    (ℕ → ExpState) × Except Err (ℕ → ℤ × ℤ) :=
  let stepped : ℕ → ExpState × (ℤ × ℤ) :=
    fun r => random_resize_step (states r) r (garbage r) randInt
  let newStates : ℕ → ExpState := fun r => (stepped r).1
  let tensors : ℕ → ℤ × ℤ := fun r => (stepped r).2
  if is_distributed then
    match barrierOk with
    | .error e => (newStates, .error e)
    | .ok _ =>
      match broadcastOk with
      | .error e => (newStates, .error e)
      | .ok _ => (newStates, .ok fun _ => tensors 0)
  else
    (newStates, .ok tensors)

/-- An input batch tensor: either raw or the result of
`nn.functional.interpolate(inputs, size=tsize)`. -/
inductive Tensor where
  | raw (id : ℕ)
  | interpolated (t : Tensor) (size : ℕ × ℕ)
deriving DecidableEq

/-- The in-place update `targets[..., 2::2] *= scale_x;
targets[..., 3::2] *= scale_y` on one row of the targets tensor: indices
0 and 1 untouched, even indices from 2 scaled by `scale_x`, odd indices
from 3 scaled by `scale_y`. -/
def scaleTargetRow (scale_x scale_y : ℚ) (row : List ℚ) : List ℚ :=
  row.mapIdx fun i t =>
    if i < 2 then t else if i % 2 = 0 then t * scale_x else t * scale_y

/-- `Exp.preprocess` (lines 201-210).  `scale_y = tsize[0] / input_size[0]`,
`scale_x = tsize[1] / input_size[1]`; when `scale_x != 1 or scale_y != 1`
the inputs are bilinearly interpolated to `tsize` and the target coordinates
are scaled rowwise; otherwise both are returned untouched.  `preprocess`
assigns no attribute of `self`, so the state passes through unchanged. -/
def preprocess (s : ExpState) (inputs : Tensor) (targets : List (List ℚ))
    (tsize : ℕ × ℕ) : ExpState × Tensor × List (List ℚ) :=
  let scale_y : ℚ := (tsize.1 : ℚ) / (s.hyper.input_size.1 : ℚ)
  let scale_x : ℚ := (tsize.2 : ℚ) / (s.hyper.input_size.2 : ℚ)
  if scale_x ≠ 1 ∨ scale_y ≠ 1 then
    (s, .interpolated inputs tsize, targets.map (scaleTargetRow scale_x scale_y))
  else
    (s, inputs, targets)

instance instDecEqExcept {ε α : Type} [DecidableEq ε] [DecidableEq α] :
    DecidableEq (Except ε α) := fun x y =>
  match x, y with
  | .ok a, .ok b =>
    if h : a = b then isTrue (by rw [h]) else isFalse (fun hh => h (Except.ok.inj hh))
  | .error a, .error b =>
    if h : a = b then isTrue (by rw [h]) else isFalse (fun hh => h (Except.error.inj hh))
  | .ok _, .error _ => isFalse (fun hh => Except.noConfusion hh)
  | .error _, .ok _ => isFalse (fun hh => Except.noConfusion hh)

/-- A small concrete model: one batch-norm module and one conv module. -/
def sampleModules : List NamedModule :=
  [⟨"backbone.bn1", true, .param 0, .param 1, []⟩,
   ⟨"head.conv", false, .param 2, .absent, []⟩]

/-- A state in which `get_model` has already cached `sampleModules`. -/
def sampleState : ExpState :=
  { ExpState.fresh with model := some ⟨0, sampleModules⟩ }

/-- The optimizer `get_optimizer` builds from `sampleState` at counter 1. -/
def sampleOpt : OptimizerObj :=
  { id := 1, pg0 := [some 0], pg1 := [some 2], pg2 := [some 1],
    lr := Exp_init.warmup_lr, momentum := Exp_init.momentum,
    weight_decay_pg1 := Exp_init.weight_decay }

/-- A module that registers a trainable parameter (id 7) under a name other
than `weight`/`bias`: the grouping loop of `get_optimizer` never sees it. -/
def badModule : NamedModule :=
  ⟨"layer0", false, .absent, .absent, [7]⟩

/-- A model with one well-formed batch-norm module (so the SGD constructor
succeeds: `pg0` is non-empty and contains no `None`) plus `badModule`, whose
parameter 7 the grouping loop drops. -/
def badModules : List NamedModule :=
  [⟨"backbone.bn1", true, .param 0, .param 1, []⟩, badModule]

/-- A state whose cached model is `badModules`. -/
def badState : ExpState :=
  { ExpState.fresh with model := some ⟨0, badModules⟩ }

/-- A state on which rank-0 `random_resize` has already installed a
multiscale range: later calls draw from the stored range. -/
def resizedState : ExpState :=
  { ExpState.fresh with random_size := some (11, 21) }

/-- The default `random_size` bounds installed by the first rank-0
`random_resize` call: `int(input_size[0] / 32) ∓ multiscale_range`. -/
def defaultMinSize (s : ExpState) : ℤ :=
  pyint ((s.hyper.input_size.1 : ℚ) / 32) - (s.hyper.multiscale_range : ℤ)

/-- Upper bound counterpart of `defaultMinSize`. -/
def defaultMaxSize (s : ExpState) : ℤ :=
  pyint ((s.hyper.input_size.1 : ℚ) / 32) + (s.hyper.multiscale_range : ℤ)

/-- C2: for every epoch where `random_resize` runs with `is_distributed`
true (and the collective calls succeed), every rank returns the same
`(height, width)` pair, namely the size picked by the rank-0 block: the
broadcast from rank 0 overwrites every worker's tensor. -/
theorem random_resize_broadcast_consistent (states : ℕ → ExpState)
    (garbage : ℕ → ℤ × ℤ) (randInt : ℤ × ℤ → ℤ) :
    (random_resize_world states garbage randInt true (.ok ()) (.ok ())).2 =
      .ok (fun _ => (random_resize_step (states 0) 0 (garbage 0) randInt).2) :=
  rfl

/-- C3: repeated calls to `get_model` return the same model object (cached in
`self.model` after the first call), and repeated calls to `get_optimizer`
with any batch sizes return the same optimizer object (cached in
`self.optimizer` after the first successful call). -/
theorem get_model_get_optimizer_cached (s : ExpState)
    (mods1 mods2 : List NamedModule) (n1 n2 m1 m2 bs1 bs2 : ℕ)
    (o : OptimizerObj) :
    ((get_model (get_model s mods1 n1).1 mods2 n2).2.2 = (get_model s mods1 n1).2.2 ∧
      ((get_model s mods1 n1).1).model = some ((get_model s mods1 n1).2.2)) ∧
    ((get_optimizer s bs1 m1).2.2 = Except.ok o →
      (get_optimizer ((get_optimizer s bs1 m1).1) bs2 m2).2.2 = Except.ok o ∧
        ((get_optimizer s bs1 m1).1).optimizer = some o) := by
  constructor
  · cases hs : s.model with
    | some m => simp [get_model, hs]
    | none => simp [get_model, hs]
  · intro h
    cases ho : s.optimizer with
    | some o0 =>
      simp only [get_optimizer, ho, Except.ok.injEq] at h
      subst h
      simp [get_optimizer, ho]
    | none =>
      cases hm : s.model with
      | none => simp [get_optimizer, ho, hm] at h
      | some mdl =>
        cases hp : paramGroups mdl.modules with
        | error e => simp [get_optimizer, ho, hm, hp] at h
        | ok g =>
          obtain ⟨g0, g1, g2⟩ := g
          by_cases hg0 : g0 = []
          · simp [get_optimizer, ho, hm, hp, hg0] at h
          · by_cases hn0 : (none : Option ℕ) ∈ g0
            · simp [get_optimizer, ho, hm, hp, hg0, hn0] at h
            · by_cases hn1 : (none : Option ℕ) ∈ g1
              · simp [get_optimizer, ho, hm, hp, hg0, hn0, hn1] at h
              · by_cases hn2 : (none : Option ℕ) ∈ g2
                · simp [get_optimizer, ho, hm, hp, hg0, hn0, hn1, hn2] at h
                · simp [get_optimizer, ho, hm, hp, hg0, hn0, hn1, hn2,
                    Except.ok.injEq] at h
                  subst h
                  simp [get_optimizer, ho, hm, hp, hg0, hn0, hn1, hn2]

/-- Witness for the cached-optimizer conjunct of the caching theorem:
on `sampleState` the first `get_optimizer` call succeeds with `sampleOpt`,
and a second call with a different batch size returns the same object. -/
theorem get_model_get_optimizer_cached_witness :
    (get_optimizer sampleState 8 1).2.2 = Except.ok sampleOpt ∧
    (get_optimizer ((get_optimizer sampleState 8 1).1) 16 9).2.2 = Except.ok sampleOpt ∧
    ((get_optimizer sampleState 8 1).1).optimizer = some sampleOpt :=
  ⟨rfl,
   ((get_model_get_optimizer_cached sampleState [] [] 0 0 1 9 8 16 sampleOpt).2 rfl).1,
   ((get_model_get_optimizer_cached sampleState [] [] 0 0 1 9 8 16 sampleOpt).2 rfl).2⟩

/-- C4 counterexample: the dataset handle is NOT memoized.  Starting from a
fresh `Exp`, two successive `get_data_loader` calls (all framework
constructors succeeding) store two different dataset objects in
`self.dataset` and return two different loader objects. -/
theorem get_data_loader_not_cached_cex :
    ((get_data_loader ExpState.fresh 0 8 false 1 false (.ok ()) (.ok ()) (.ok ())).1).dataset
        = some 1 ∧
    ((get_data_loader ((get_data_loader ExpState.fresh 0 8 false 1 false
          (.ok ()) (.ok ()) (.ok ())).1) 3 8 false 1 false
          (.ok ()) (.ok ()) (.ok ())).1).dataset = some 4 ∧
    (get_data_loader ExpState.fresh 0 8 false 1 false (.ok ()) (.ok ()) (.ok ())).2.2 ≠
      (get_data_loader ((get_data_loader ExpState.fresh 0 8 false 1 false
          (.ok ()) (.ok ()) (.ok ())).1) 3 8 false 1 false
          (.ok ()) (.ok ()) (.ok ())).2.2 := by
  refine ⟨rfl, rfl, ?_⟩
  decide

/-- C4 amended: `get_data_loader` has no cache check; every call constructs
a fresh `COCODataset`/`MosaicDetection`/`DataLoader`, overwrites
`self.dataset` with the newly built dataset, and returns a loader distinct
from the one returned by the previous call. -/
theorem get_data_loader_constructs_fresh (s : ExpState) (n bs1 bs2 w1 w2 : ℕ)
    (d1 d2 na1 na2 : Bool) :
    (get_data_loader s n bs1 d1 w1 na1 (.ok ()) (.ok ()) (.ok ())).1.dataset
        = some (n + 1) ∧
    (get_data_loader ((get_data_loader s n bs1 d1 w1 na1 (.ok ()) (.ok ()) (.ok ())).1)
        ((get_data_loader s n bs1 d1 w1 na1 (.ok ()) (.ok ()) (.ok ())).2.1)
        bs2 d2 w2 na2 (.ok ()) (.ok ()) (.ok ())).1.dataset = some (n + 4) ∧
    some (n + 1) ≠ some (n + 4) ∧
    (get_data_loader s n bs1 d1 w1 na1 (.ok ()) (.ok ()) (.ok ())).2.2 ≠
      (get_data_loader ((get_data_loader s n bs1 d1 w1 na1 (.ok ()) (.ok ()) (.ok ())).1)
        ((get_data_loader s n bs1 d1 w1 na1 (.ok ()) (.ok ()) (.ok ())).2.1)
        bs2 d2 w2 na2 (.ok ()) (.ok ()) (.ok ())).2.2 := by
  refine ⟨rfl, rfl, ?_, ?_⟩
  · intro h
    simp only [Option.some.injEq] at h
    omega
  · intro h
    simp only [get_data_loader, Except.ok.injEq, DataLoaderObj.mk.injEq] at h
    omega

/-- C10: with `is_distributed` true both loaders are built with per-process
batch size `batch_size // world_size` — the floor of the division, as
characterised by the two order inequalities — and with `is_distributed`
false the full `batch_size` is used unchanged. -/
theorem loader_per_process_batch_size (s : ExpState) (n bs w : ℕ) (na : Bool)
    (hw : 1 ≤ w) :
    ((get_data_loader s n bs true w na (.ok ()) (.ok ()) (.ok ())).2.2 =
        .ok { id := n + 2, datasetId := n + 1, batch_size := bs / w,
              num_workers := s.hyper.data_num_workers, mosaic := !na } ∧
      (bs / w) * w ≤ bs ∧ bs < (bs / w) * w + w) ∧
    (get_data_loader s n bs false w na (.ok ()) (.ok ()) (.ok ())).2.2 =
      .ok { id := n + 2, datasetId := n + 1, batch_size := bs,
            num_workers := s.hyper.data_num_workers, mosaic := !na } ∧
    ((get_eval_loader s n bs true w (.ok ()) (.ok ())).2.2 =
        .ok { id := n + 1, datasetId := n, batch_size := bs / w,
              sampler_distributed := true } ∧
      (bs / w) * w ≤ bs ∧ bs < (bs / w) * w + w) ∧
    (get_eval_loader s n bs false w (.ok ()) (.ok ())).2.2 =
      .ok { id := n + 1, datasetId := n, batch_size := bs,
            sampler_distributed := false } := by
  have hdm := Nat.div_add_mod bs w
  have hlt : bs % w < w := Nat.mod_lt bs hw
  have hcomm : (bs / w) * w = w * (bs / w) := Nat.mul_comm _ _
  refine ⟨⟨rfl, ?_, ?_⟩, rfl, ⟨rfl, ?_, ?_⟩, rfl⟩ <;> omega

/-- Witness for the per-process batch-size theorem at `w = 3`, `bs = 10`. -/
theorem loader_per_process_batch_size_witness :
    1 ≤ 3 ∧
    (((get_data_loader ExpState.fresh 0 10 true 3 false (.ok ()) (.ok ()) (.ok ())).2.2 =
        .ok { id := 2, datasetId := 1, batch_size := 10 / 3,
              num_workers := ExpState.fresh.hyper.data_num_workers, mosaic := !false } ∧
      (10 / 3) * 3 ≤ 10 ∧ 10 < (10 / 3) * 3 + 3) ∧
    (get_data_loader ExpState.fresh 0 10 false 3 false (.ok ()) (.ok ()) (.ok ())).2.2 =
      .ok { id := 2, datasetId := 1, batch_size := 10,
            num_workers := ExpState.fresh.hyper.data_num_workers, mosaic := !false } ∧
    ((get_eval_loader ExpState.fresh 0 10 true 3 (.ok ()) (.ok ())).2.2 =
        .ok { id := 1, datasetId := 0, batch_size := 10 / 3,
              sampler_distributed := true } ∧
      (10 / 3) * 3 ≤ 10 ∧ 10 < (10 / 3) * 3 + 3) ∧
    (get_eval_loader ExpState.fresh 0 10 false 3 (.ok ()) (.ok ())).2.2 =
      .ok { id := 1, datasetId := 0, batch_size := 10,
            sampler_distributed := false }) :=
  ⟨by decide, loader_per_process_batch_size ExpState.fresh 0 10 3 false (by decide)⟩

/-- C7: no operation catches, transforms, retries or recovers from a
framework error: whichever external call raises first (dataset, wrapper or
loader constructor; `dist.barrier`; `dist.broadcast`), the same exception
object `e` is what the operation produces, unchanged. -/
theorem framework_errors_propagate_unchanged (s : ExpState)
    (states : ℕ → ExpState) (garbage : ℕ → ℤ × ℤ) (randInt : ℤ × ℤ → ℤ)
    (n bs w : ℕ) (d na : Bool) (e : Err) (o1 o2 : Except Err Unit) :
    (get_data_loader s n bs d w na (.error e) o1 o2).2.2 = .error e ∧
    (get_data_loader s n bs d w na (.ok ()) (.error e) o2).2.2 = .error e ∧
    (get_data_loader s n bs d w na (.ok ()) (.ok ()) (.error e)).2.2 = .error e ∧
    (get_eval_loader s n bs d w (.error e) o1).2.2 = .error e ∧
    (get_eval_loader s n bs d w (.ok ()) (.error e)).2.2 = .error e ∧
    (random_resize_world states garbage randInt true (.error e) o1).2 = .error e ∧
    (random_resize_world states garbage randInt true (.ok ()) (.error e)).2 = .error e :=
  ⟨rfl, rfl, rfl, rfl, rfl, rfl, rfl⟩

/-- C6 counterexample: `random_resize` DOES write a configuration attribute
other than the three cached handles — on its first call at rank 0 it stores
the default multiscale range in `self.random_size`. -/
theorem random_resize_writes_random_size_cex :
    ExpState.fresh.random_size = none ∧
    (random_resize_step ExpState.fresh 0 (0, 0) (fun p => p.1)).1.random_size ≠
      ExpState.fresh.random_size := by
  refine ⟨rfl, ?_⟩
  intro h
  simp only [random_resize_step, ExpState.fresh] at h
  exact Option.noConfusion h

/-- C6 amended: during training the operations write no configuration
attribute other than the three cached handles and `random_size`:
`random_resize` leaves every hyperparameter and every cached handle
untouched (writing only `random_size`), `get_data_loader` writes only
`dataset`, `get_optimizer` writes only `optimizer`, and `preprocess` writes
nothing at all. -/
theorem training_ops_write_only_handles_and_random_size (s : ExpState)
    (rk n bs w : ℕ) (t : ℤ × ℤ) (randInt : ℤ × ℤ → ℤ) (d na : Bool)
    (c1 c2 c3 : Except Err Unit) (inputs : Tensor)
    (targets : List (List ℚ)) (tsize : ℕ × ℕ) :
    ((random_resize_step s rk t randInt).1.hyper = s.hyper ∧
      (random_resize_step s rk t randInt).1.model = s.model ∧
      (random_resize_step s rk t randInt).1.optimizer = s.optimizer ∧
      (random_resize_step s rk t randInt).1.dataset = s.dataset) ∧
    ((get_data_loader s n bs d w na c1 c2 c3).1.hyper = s.hyper ∧
      (get_data_loader s n bs d w na c1 c2 c3).1.random_size = s.random_size ∧
      (get_data_loader s n bs d w na c1 c2 c3).1.model = s.model ∧
      (get_data_loader s n bs d w na c1 c2 c3).1.optimizer = s.optimizer) ∧
    ((get_optimizer s bs n).1.hyper = s.hyper ∧
      (get_optimizer s bs n).1.random_size = s.random_size ∧
      (get_optimizer s bs n).1.model = s.model ∧
      (get_optimizer s bs n).1.dataset = s.dataset) ∧
    (preprocess s inputs targets tsize).1 = s := by
  refine ⟨?_, ?_, ?_, ?_⟩
  · rcases Nat.eq_zero_or_pos rk with hrk | hrk
    · subst hrk
      cases hrs : s.random_size <;>
        simp [random_resize_step, hrs]
    · have : rk ≠ 0 := Nat.pos_iff_ne_zero.mp hrk
      simp [random_resize_step, this]
  · cases c1 with
    | error e => simp [get_data_loader]
    | ok u =>
      cases c2 with
      | error e => simp [get_data_loader]
      | ok u2 =>
        cases c3 with
        | error e => simp [get_data_loader]
        | ok u3 => simp [get_data_loader]
  · cases ho : s.optimizer with
    | some o0 => simp [get_optimizer, ho]
    | none =>
      cases hm : s.model with
      | none => simp [get_optimizer, ho, hm]
      | some mdl =>
        cases hp : paramGroups mdl.modules with
        | error e => simp [get_optimizer, ho, hm, hp]
        | ok g =>
          obtain ⟨g0, g1, g2⟩ := g
          simp only [get_optimizer, ho, hm, hp]
          split_ifs <;> simp [hm]
  · by_cases hc :
      ((tsize.2 : ℚ) / (s.hyper.input_size.2 : ℚ) ≠ 1 ∨
        (tsize.1 : ℚ) / (s.hyper.input_size.1 : ℚ) ≠ 1) <;>
      simp [preprocess, hc]

/-- C8: every rank-0 `random_resize` call draws `size` from the inclusive
range in `self.random_size` — the stored range when the attribute is present
(later calls, or a user-preset range), else the freshly installed default
`(int(input_size[0]/32) - multiscale_range,
int(input_size[0]/32) + multiscale_range)` — and returns the pair
`(32 * size, 32 * int(size * input_size[1]/input_size[0]))`: both components
are always multiples of 32. -/
theorem random_resize_rank0_sizes_mult32 (s : ExpState) (t : ℤ × ℤ)
    (randInt : ℤ × ℤ → ℤ) (hpos : 0 < s.hyper.input_size.1) :
    (32 : ℤ) ∣ (random_resize_step s 0 t randInt).2.1 ∧
    (32 : ℤ) ∣ (random_resize_step s 0 t randInt).2.2 ∧
    (random_resize_step s 0 t randInt).1.random_size =
      some (s.random_size.getD (defaultMinSize s, defaultMaxSize s)) ∧
    (random_resize_step s 0 t randInt).2 =
      (32 * randInt (s.random_size.getD (defaultMinSize s, defaultMaxSize s)),
        32 * pyint ((randInt (s.random_size.getD (defaultMinSize s, defaultMaxSize s)) : ℚ) *
          ((s.hyper.input_size.2 : ℚ) / (s.hyper.input_size.1 : ℚ)))) := by
  refine ⟨?_, ?_, ?_, ?_⟩ <;>
    cases hrs : s.random_size <;>
      simp [random_resize_step, hrs, defaultMinSize, defaultMaxSize]

/-- Witness for the rank-0 size theorem on a state whose `random_size` was
already installed (a later rank-0 call), with the RNG returning the lower
bound of the range it is given. -/
theorem random_resize_rank0_sizes_mult32_witness :
    0 < resizedState.hyper.input_size.1 ∧
    ((32 : ℤ) ∣ (random_resize_step resizedState 0 (0, 0) (fun p => p.1)).2.1 ∧
    (32 : ℤ) ∣ (random_resize_step resizedState 0 (0, 0) (fun p => p.1)).2.2 ∧
    (random_resize_step resizedState 0 (0, 0) (fun p => p.1)).1.random_size =
      some (resizedState.random_size.getD (defaultMinSize resizedState, defaultMaxSize resizedState)) ∧
    (random_resize_step resizedState 0 (0, 0) (fun p => p.1)).2 =
      (32 * (fun p => p.1) (resizedState.random_size.getD (defaultMinSize resizedState, defaultMaxSize resizedState)),
        32 * pyint (((fun p => p.1) (resizedState.random_size.getD (defaultMinSize resizedState, defaultMaxSize resizedState)) : ℚ) *
          ((resizedState.hyper.input_size.2 : ℚ) / (resizedState.hyper.input_size.1 : ℚ))))) :=
  ⟨by decide,
    random_resize_rank0_sizes_mult32 resizedState (0, 0) (fun p => p.1) (by decide)⟩

/-- C9: `preprocess` is the identity when the requested size equals the
configured input size: both scales are 1, so no interpolation and no target
scaling happens and inputs, targets and state come back unchanged. -/
theorem preprocess_identity_when_tsize_eq_input (s : ExpState) (inputs : Tensor)
    (targets : List (List ℚ)) (tsize : ℕ × ℕ)
    (h1 : 0 < s.hyper.input_size.1) (h2 : 0 < s.hyper.input_size.2)
    (ht1 : tsize.1 = s.hyper.input_size.1) (ht2 : tsize.2 = s.hyper.input_size.2) :
    preprocess s inputs targets tsize = (s, inputs, targets) := by
  have e1 : ((tsize.1 : ℚ) / (s.hyper.input_size.1 : ℚ)) = 1 := by
    rw [ht1]
    exact div_self (Nat.cast_ne_zero.mpr (Nat.pos_iff_ne_zero.mp h1))
  have e2 : ((tsize.2 : ℚ) / (s.hyper.input_size.2 : ℚ)) = 1 := by
    rw [ht2]
    exact div_self (Nat.cast_ne_zero.mpr (Nat.pos_iff_ne_zero.mp h2))
  simp [preprocess, e1, e2]

/-- Witness for the `preprocess` identity on the default input size. -/
theorem preprocess_identity_witness :
    0 < ExpState.fresh.hyper.input_size.1 ∧
    0 < ExpState.fresh.hyper.input_size.2 ∧
    preprocess ExpState.fresh (Tensor.raw 0) [[1, 2, 3, 4]] (512, 640) =
      (ExpState.fresh, Tensor.raw 0, [[1, 2, 3, 4]]) :=
  ⟨by decide, by decide,
    preprocess_identity_when_tsize_eq_input ExpState.fresh (Tensor.raw 0)
      [[1, 2, 3, 4]] (512, 640) (by decide) (by decide) rfl rfl⟩

/-- C5: `preprocess` uses `scale_y = tsize[0]/input_size[0]` and
`scale_x = tsize[1]/input_size[1]`; whenever the requested size differs from
the configured input size (so one of the scales differs from 1) the inputs
are interpolated to `tsize` and each target coordinate at an even index ≥ 2
is multiplied by `scale_x` while each coordinate at an odd index ≥ 3 is
multiplied by `scale_y` (indices 0 and 1 are untouched). -/
theorem preprocess_scale_correct (s : ExpState) (inputs : Tensor)
    (targets : List (List ℚ)) (tsize : ℕ × ℕ)
    (h1 : 0 < s.hyper.input_size.1) (h2 : 0 < s.hyper.input_size.2)
    (hne : tsize.1 ≠ s.hyper.input_size.1 ∨ tsize.2 ≠ s.hyper.input_size.2) :
    (preprocess s inputs targets tsize).2.1 = Tensor.interpolated inputs tsize ∧
    ∀ r i : ℕ, ∀ row : List ℚ, ∀ t : ℚ,
      targets[r]? = some row → row[i]? = some t →
      ∃ row2 : List ℚ, ((preprocess s inputs targets tsize).2.2)[r]? = some row2 ∧
        row2[i]? = some (if i < 2 then t
          else if i % 2 = 0 then t * ((tsize.2 : ℚ) / (s.hyper.input_size.2 : ℚ))
          else t * ((tsize.1 : ℚ) / (s.hyper.input_size.1 : ℚ))) := by
  have hsx_or : ((tsize.2 : ℚ) / (s.hyper.input_size.2 : ℚ)) ≠ 1 ∨
      ((tsize.1 : ℚ) / (s.hyper.input_size.1 : ℚ)) ≠ 1 := by
    rcases hne with h | h
    · right
      intro hq
      apply h
      have hb : ((s.hyper.input_size.1 : ℕ) : ℚ) ≠ 0 :=
        Nat.cast_ne_zero.mpr (Nat.pos_iff_ne_zero.mp h1)
      exact_mod_cast (div_eq_one_iff_eq hb).mp hq
    · left
      intro hq
      apply h
      have hb : ((s.hyper.input_size.2 : ℕ) : ℚ) ≠ 0 :=
        Nat.cast_ne_zero.mpr (Nat.pos_iff_ne_zero.mp h2)
      exact_mod_cast (div_eq_one_iff_eq hb).mp hq
  refine ⟨by simp [preprocess, hsx_or], ?_⟩
  intro r i row t hr hi
  refine ⟨scaleTargetRow ((tsize.2 : ℚ) / (s.hyper.input_size.2 : ℚ))
      ((tsize.1 : ℚ) / (s.hyper.input_size.1 : ℚ)) row, ?_, ?_⟩
  · simp [preprocess, hsx_or, hr]
  · obtain ⟨hlt, hval⟩ := List.getElem?_eq_some.mp hi
    unfold scaleTargetRow
    rw [List.getElem?_eq_getElem (by simpa [List.length_mapIdx] using hlt)]
    simp [List.get_mapIdx, hval]

/-- Per-module accounting for the grouping loop: when the module registers
parameters only under `weight`/`bias` and the bn-branch cannot raise, the
loop's contribution for this module contains each of the module's parameters
exactly as often as the module owns it. -/
theorem moduleGroups_count (m : NamedModule) (hother : m.otherParams = [])
    (hbn : (m.isBatchNorm2d || pySubstr "bn" m.name) = true →
      m.weightAttr ≠ PAttr.absent) :
    ∃ a0 a1 a2, moduleGroups m = .ok (a0, a1, a2) ∧
      ∀ p : ℕ, ((a0 ++ a1 ++ a2).count (some p)) = (moduleParams m).count p := by
  cases hcond : (m.isBatchNorm2d || pySubstr "bn" m.name) with
  | true =>
    cases hw : m.weightAttr with
    | absent => exact absurd hw (hbn hcond)
    | pyNone =>
      cases hb : m.biasAttr with
      | absent =>
        exact ⟨[none], [], [], by simp [moduleGroups, hcond, hw, hb], fun p => by
          simp [moduleParams, attrParams, hother, hw, hb, List.count_cons]⟩
      | pyNone =>
        exact ⟨[none], [], [], by simp [moduleGroups, hcond, hw, hb], fun p => by
          simp [moduleParams, attrParams, hother, hw, hb, List.count_cons]⟩
      | param j =>
        exact ⟨[none], [], [some j], by simp [moduleGroups, hcond, hw, hb], fun p => by
          simp [moduleParams, attrParams, hother, hw, hb,
            List.count_cons, List.count_append]⟩
    | param i =>
      cases hb : m.biasAttr with
      | absent =>
        exact ⟨[some i], [], [], by simp [moduleGroups, hcond, hw, hb], fun p => by
          simp [moduleParams, attrParams, hother, hw, hb,
            List.count_cons, List.count_append]⟩
      | pyNone =>
        exact ⟨[some i], [], [], by simp [moduleGroups, hcond, hw, hb], fun p => by
          simp [moduleParams, attrParams, hother, hw, hb,
            List.count_cons, List.count_append]⟩
      | param j =>
        exact ⟨[some i], [], [some j], by simp [moduleGroups, hcond, hw, hb], fun p => by
          simp [moduleParams, attrParams, hother, hw, hb,
            List.count_cons, List.count_append]⟩
  | false =>
    cases hw : m.weightAttr with
    | absent =>
      cases hb : m.biasAttr with
      | absent =>
        exact ⟨[], [], [], by simp [moduleGroups, hcond, hw, hb], fun p => by
          simp [moduleParams, attrParams, hother, hw, hb]⟩
      | pyNone =>
        exact ⟨[], [], [], by simp [moduleGroups, hcond, hw, hb], fun p => by
          simp [moduleParams, attrParams, hother, hw, hb]⟩
      | param j =>
        exact ⟨[], [], [some j], by simp [moduleGroups, hcond, hw, hb], fun p => by
          simp [moduleParams, attrParams, hother, hw, hb,
            List.count_cons, List.count_append]⟩
    | pyNone =>
      cases hb : m.biasAttr with
      | absent =>
        exact ⟨[], [], [], by simp [moduleGroups, hcond, hw, hb], fun p => by
          simp [moduleParams, attrParams, hother, hw, hb]⟩
      | pyNone =>
        exact ⟨[], [], [], by simp [moduleGroups, hcond, hw, hb], fun p => by
          simp [moduleParams, attrParams, hother, hw, hb]⟩
      | param j =>
        exact ⟨[], [], [some j], by simp [moduleGroups, hcond, hw, hb], fun p => by
          simp [moduleParams, attrParams, hother, hw, hb,
            List.count_cons, List.count_append]⟩
    | param i =>
      cases hb : m.biasAttr with
      | absent =>
        exact ⟨[], [some i], [], by simp [moduleGroups, hcond, hw, hb], fun p => by
          simp [moduleParams, attrParams, hother, hw, hb,
            List.count_cons, List.count_append]⟩
      | pyNone =>
        exact ⟨[], [some i], [], by simp [moduleGroups, hcond, hw, hb], fun p => by
          simp [moduleParams, attrParams, hother, hw, hb,
            List.count_cons, List.count_append]⟩
      | param j =>
        exact ⟨[], [some i], [some j], by simp [moduleGroups, hcond, hw, hb], fun p => by
          simp [moduleParams, attrParams, hother, hw, hb,
            List.count_cons, List.count_append]⟩

/-- Whole-loop accounting: under the same per-module conditions the three
groups together contain each trainable parameter of the model exactly as
often as the model owns it. -/
theorem paramGroups_count (mods : List NamedModule)
    (hother : ∀ m ∈ mods, m.otherParams = [])
    (hbn : ∀ m ∈ mods, (m.isBatchNorm2d || pySubstr "bn" m.name) = true →
      m.weightAttr ≠ PAttr.absent) :
    ∃ g0 g1 g2, paramGroups mods = .ok (g0, g1, g2) ∧
      ∀ p : ℕ, ((g0 ++ g1 ++ g2).count (some p)) = (allParams mods).count p := by
  induction mods with
  | nil => exact ⟨[], [], [], rfl, fun p => by simp [allParams]⟩
  | cons m rest ih =>
    obtain ⟨a0, a1, a2, hma, hca⟩ :=
      moduleGroups_count m (hother m (List.mem_cons_self m rest))
        (hbn m (List.mem_cons_self m rest))
    obtain ⟨g0, g1, g2, hmg, hcg⟩ :=
      ih (fun x hx => hother x (List.mem_cons_of_mem m hx))
        (fun x hx => hbn x (List.mem_cons_of_mem m hx))
    refine ⟨a0 ++ g0, a1 ++ g1, a2 ++ g2, ?_, ?_⟩
    · simp [paramGroups, hma, hmg]
    · intro p
      have hall : allParams (m :: rest) = moduleParams m ++ allParams rest := by
        simp [allParams]
      have h1 := hca p
      have h2 := hcg p
      simp only [List.count_append] at h1 h2 ⊢
      rw [hall]
      simp only [List.count_append]
      omega

/-- Each module's per-module contribution embeds into the final groups. -/
theorem paramGroups_mem_of_module (m : NamedModule) :
    ∀ (mods : List NamedModule) (g0 g1 g2 : List (Option ℕ)),
      paramGroups mods = .ok (g0, g1, g2) → m ∈ mods →
      ∃ a0 a1 a2, moduleGroups m = .ok (a0, a1, a2) ∧
        (∀ x ∈ a0, x ∈ g0) ∧ (∀ x ∈ a1, x ∈ g1) ∧ (∀ x ∈ a2, x ∈ g2) := by
  intro mods
  induction mods with
  | nil => intro g0 g1 g2 _ hm; cases hm
  | cons h rest ih =>
    intro g0 g1 g2 hok hm
    cases hmh : moduleGroups h with
    | error e => simp [paramGroups, hmh] at hok
    | ok tri =>
      obtain ⟨b0, b1, b2⟩ := tri
      cases hrest : paramGroups rest with
      | error e => simp [paramGroups, hmh, hrest] at hok
      | ok tri2 =>
        obtain ⟨c0, c1, c2⟩ := tri2
        have hok2 : b0 ++ c0 = g0 ∧ b1 ++ c1 = g1 ∧ b2 ++ c2 = g2 := by
          simpa [paramGroups, hmh, hrest] using hok
        obtain ⟨e0, e1, e2⟩ := hok2
        subst e0; subst e1; subst e2
        rcases List.mem_cons.mp hm with rfl | hm2
        · exact ⟨b0, b1, b2, hmh,
            fun x hx => List.mem_append_left _ hx,
            fun x hx => List.mem_append_left _ hx,
            fun x hx => List.mem_append_left _ hx⟩
        · obtain ⟨a0, a1, a2, hma, s0, s1, s2⟩ := ih c0 c1 c2 hrest hm2
          exact ⟨a0, a1, a2, hma,
            fun x hx => List.mem_append_right _ (s0 x hx),
            fun x hx => List.mem_append_right _ (s1 x hx),
            fun x hx => List.mem_append_right _ (s2 x hx)⟩

/-- A `Parameter` bias always lands in this module's `pg2` contribution. -/
theorem moduleGroups_bias_mem (m : NamedModule) (a0 a1 a2 : List (Option ℕ))
    (hok : moduleGroups m = .ok (a0, a1, a2)) (i : ℕ)
    (hb : m.biasAttr = PAttr.param i) : some i ∈ a2 := by
  cases hcond : (m.isBatchNorm2d || pySubstr "bn" m.name) with
  | true =>
    cases hw : m.weightAttr with
    | absent => simp [moduleGroups, hcond, hw, hb] at hok
    | pyNone =>
      have h2 : a2 = [some i] := by
        have := hok
        simp [moduleGroups, hcond, hw, hb] at this
        exact this.2.2.symm
      simp [h2]
    | param j =>
      have h2 : a2 = [some i] := by
        have := hok
        simp [moduleGroups, hcond, hw, hb] at this
        exact this.2.2.symm
      simp [h2]
  | false =>
    cases hw : m.weightAttr with
    | absent =>
      have h2 : a2 = [some i] := by
        have := hok
        simp [moduleGroups, hcond, hw, hb] at this
        exact this.2.2.symm
      simp [h2]
    | pyNone =>
      have h2 : a2 = [some i] := by
        have := hok
        simp [moduleGroups, hcond, hw, hb] at this
        exact this.2.2.symm
      simp [h2]
    | param j =>
      have h2 : a2 = [some i] := by
        have := hok
        simp [moduleGroups, hcond, hw, hb] at this
        exact this.2.2.symm
      simp [h2]

/-- A `Parameter` weight of a bn-branch module lands in `pg0`. -/
theorem moduleGroups_weight_mem_pg0 (m : NamedModule) (a0 a1 a2 : List (Option ℕ))
    (hok : moduleGroups m = .ok (a0, a1, a2)) (i : ℕ)
    (hw : m.weightAttr = PAttr.param i)
    (hcond : (m.isBatchNorm2d || pySubstr "bn" m.name) = true) : some i ∈ a0 := by
  have h0 : a0 = [some i] := by
    have := hok
    cases hb : m.biasAttr <;> simp [moduleGroups, hcond, hw, hb] at this <;>
      exact this.1.symm
  simp [h0]

/-- A `Parameter` weight of a non-bn module lands in `pg1`. -/
theorem moduleGroups_weight_mem_pg1 (m : NamedModule) (a0 a1 a2 : List (Option ℕ))
    (hok : moduleGroups m = .ok (a0, a1, a2)) (i : ℕ)
    (hw : m.weightAttr = PAttr.param i)
    (hcond : (m.isBatchNorm2d || pySubstr "bn" m.name) = false) : some i ∈ a1 := by
  have h1 : a1 = [some i] := by
    have := hok
    cases hb : m.biasAttr <;> simp [moduleGroups, hcond, hw, hb] at this <;>
      exact this.2.1.symm
  simp [h1]

/-- When every bn-branch module's weight is an actual `Parameter`, a module
contributes no Python `None` to any group. -/
theorem moduleGroups_no_none (m : NamedModule)
    (hpw : (m.isBatchNorm2d || pySubstr "bn" m.name) = true →
      m.weightAttr.isParam = true) :
    ∀ a0 a1 a2, moduleGroups m = .ok (a0, a1, a2) →
      (none : Option ℕ) ∉ a0 ∧ (none : Option ℕ) ∉ a1 ∧ (none : Option ℕ) ∉ a2 := by
  intro a0 a1 a2 hok
  cases hcond : (m.isBatchNorm2d || pySubstr "bn" m.name) with
  | true =>
    cases hw : m.weightAttr with
    | absent => simp [moduleGroups, hcond, hw] at hok
    | pyNone =>
      have hv := hpw hcond
      rw [hw] at hv
      simp [PAttr.isParam] at hv
    | param i =>
      cases hb : m.biasAttr <;>
        · simp [moduleGroups, hcond, hw, hb] at hok
          obtain ⟨rfl, rfl, rfl⟩ := hok
          simp
  | false =>
    cases hw : m.weightAttr <;> cases hb : m.biasAttr <;>
      · simp [moduleGroups, hcond, hw, hb] at hok
        obtain ⟨rfl, rfl, rfl⟩ := hok
        simp

/-- When every bn-branch module's weight is an actual `Parameter`, none of
the three groups contains a Python `None`. -/
theorem paramGroups_no_none (mods : List NamedModule)
    (hpw : ∀ m ∈ mods, (m.isBatchNorm2d || pySubstr "bn" m.name) = true →
      m.weightAttr.isParam = true) :
    ∀ g0 g1 g2, paramGroups mods = .ok (g0, g1, g2) →
      (none : Option ℕ) ∉ g0 ∧ (none : Option ℕ) ∉ g1 ∧ (none : Option ℕ) ∉ g2 := by
  induction mods with
  | nil =>
    intro g0 g1 g2 hok
    simp [paramGroups] at hok
    obtain ⟨rfl, rfl, rfl⟩ := hok
    simp
  | cons m rest ih =>
    intro g0 g1 g2 hok
    cases hmh : moduleGroups m with
    | error e => simp [paramGroups, hmh] at hok
    | ok tri =>
      obtain ⟨b0, b1, b2⟩ := tri
      cases hrest : paramGroups rest with
      | error e => simp [paramGroups, hmh, hrest] at hok
      | ok tri2 =>
        obtain ⟨c0, c1, c2⟩ := tri2
        have hok2 : b0 ++ c0 = g0 ∧ b1 ++ c1 = g1 ∧ b2 ++ c2 = g2 := by
          simpa [paramGroups, hmh, hrest] using hok
        obtain ⟨e0, e1, e2⟩ := hok2
        subst e0; subst e1; subst e2
        obtain ⟨hb0, hb1, hb2⟩ :=
          moduleGroups_no_none m (hpw m (List.mem_cons_self m rest)) b0 b1 b2 hmh
        obtain ⟨hc0, hc1, hc2⟩ :=
          ih (fun x hx => hpw x (List.mem_cons_of_mem m hx)) c0 c1 c2 hrest
        exact ⟨by simp [List.mem_append, hb0, hc0],
               by simp [List.mem_append, hb1, hc1],
               by simp [List.mem_append, hb2, hc2]⟩

/-- C1 counterexample: the claim fails for `badModules`, a model with one
well-formed batch-norm module (so the real `torch.optim.SGD` call succeeds:
`pg0` is non-empty and all entries are Parameters) plus a module that
registers its single trainable parameter (id 7) under a name other than
`weight`/`bias`.  `get_optimizer` succeeds but parameter 7 lands in none of
the three buckets. -/
theorem get_optimizer_partition_cex :
    (get_optimizer badState 8 1).2.2 = Except.ok
      { id := 1, pg0 := [some 0], pg1 := [], pg2 := [some 1],
        lr := Exp_init.warmup_lr, momentum := Exp_init.momentum,
        weight_decay_pg1 := Exp_init.weight_decay } ∧
    7 ∈ allParams badModules ∧
    ((([some 0] : List (Option ℕ)) ++ [] ++ [some 1]).count (some 7)) = 0 := by
  refine ⟨rfl, ?_, ?_⟩ <;> decide

/-- C1 amended: for models in which every trainable parameter is registered
as the `weight` or `bias` attribute of exactly one module (no extra
parameter names, no sharing), every bn-branch module's weight is an actual
`Parameter` (ruling out the `AttributeError` of a missing weight and the
`TypeError` of a `None` weight in `pg0`), and at least one module takes the
bn branch (ruling out the `ValueError` on an empty `pg0`), `get_optimizer`
succeeds and its three groups partition the trainable parameters: each
parameter occurs in exactly one group exactly once, the groups contain
nothing outside the model's parameters, biases go to `pg2`, bn-branch
weights to `pg0` and all other weights to `pg1`. -/
theorem get_optimizer_groups_partition (s : ExpState) (mdl : ModelObj)
    (bs nid : ℕ) (hm : s.model = some mdl) (hopt : s.optimizer = none)
    (hother : ∀ m ∈ mdl.modules, m.otherParams = [])
    (hbn : ∀ m ∈ mdl.modules, (m.isBatchNorm2d || pySubstr "bn" m.name) = true →
      m.weightAttr.isParam = true)
    (hsome : ∃ mb ∈ mdl.modules, (mb.isBatchNorm2d || pySubstr "bn" mb.name) = true)
    (hnd : (allParams mdl.modules).Nodup) :
    ∃ o : OptimizerObj, (get_optimizer s bs nid).2.2 = Except.ok o ∧
      (∀ p ∈ allParams mdl.modules, ((o.pg0 ++ o.pg1 ++ o.pg2).count (some p)) = 1) ∧
      (∀ p : ℕ, some p ∈ o.pg0 ++ o.pg1 ++ o.pg2 → p ∈ allParams mdl.modules) ∧
      (∀ m ∈ mdl.modules, ∀ i : ℕ, m.biasAttr = PAttr.param i → some i ∈ o.pg2) ∧
      (∀ m ∈ mdl.modules, ∀ i : ℕ, m.weightAttr = PAttr.param i →
        (((m.isBatchNorm2d || pySubstr "bn" m.name) = true → some i ∈ o.pg0) ∧
          ((m.isBatchNorm2d || pySubstr "bn" m.name) = false → some i ∈ o.pg1))) := by
  have hbn' : ∀ m ∈ mdl.modules,
      (m.isBatchNorm2d || pySubstr "bn" m.name) = true →
      m.weightAttr ≠ PAttr.absent := by
    intro m hm2 hc
    have hv := hbn m hm2 hc
    cases hwv : m.weightAttr with
    | absent => rw [hwv] at hv; simp [PAttr.isParam] at hv
    | pyNone => simp [hwv]
    | param i => simp [hwv]
  obtain ⟨g0, g1, g2, hpg, hcnt⟩ := paramGroups_count mdl.modules hother hbn'
  obtain ⟨hn0, hn1, hn2⟩ := paramGroups_no_none mdl.modules hbn g0 g1 g2 hpg
  obtain ⟨mb, hmb, hcondb⟩ := hsome
  obtain ⟨i0, hwi⟩ : ∃ i, mb.weightAttr = PAttr.param i := by
    have hwp := hbn mb hmb hcondb
    cases hwv : mb.weightAttr with
    | param i => exact ⟨i, rfl⟩
    | absent => rw [hwv] at hwp; simp [PAttr.isParam] at hwp
    | pyNone => rw [hwv] at hwp; simp [PAttr.isParam] at hwp
  have hg0ne : g0 ≠ [] := by
    obtain ⟨a0, a1, a2, hma, sub0, sub1, sub2⟩ :=
      paramGroups_mem_of_module mb mdl.modules g0 g1 g2 hpg hmb
    exact List.ne_nil_of_mem
      (sub0 _ (moduleGroups_weight_mem_pg0 mb a0 a1 a2 hma i0 hwi hcondb))
  refine ⟨({ id := nid, pg0 := g0, pg1 := g1, pg2 := g2,
             lr := (if s.hyper.warmup_epochs > 0 then s.hyper.warmup_lr
                    else s.hyper.basic_lr_per_img * bs),
             momentum := s.hyper.momentum,
             weight_decay_pg1 := s.hyper.weight_decay } : OptimizerObj),
    ?_, ?_, ?_, ?_, ?_⟩
  · simp [get_optimizer, hopt, hm, hpg, hg0ne, hn0, hn1, hn2]
  · intro p hp
    show ((g0 ++ g1 ++ g2).count (some p)) = 1
    rw [hcnt p]
    exact List.count_eq_one_of_mem hnd hp
  · intro p hp
    have hp2 : 0 < (g0 ++ g1 ++ g2).count (some p) := List.count_pos_iff.mpr hp
    rw [hcnt p] at hp2
    exact List.count_pos_iff.mp hp2
  · intro m hmem i hb
    obtain ⟨a0, a1, a2, hma, s0, s1, s2⟩ :=
      paramGroups_mem_of_module m mdl.modules g0 g1 g2 hpg hmem
    exact s2 _ (moduleGroups_bias_mem m a0 a1 a2 hma i hb)
  · intro m hmem i hw
    obtain ⟨a0, a1, a2, hma, s0, s1, s2⟩ :=
      paramGroups_mem_of_module m mdl.modules g0 g1 g2 hpg hmem
    exact ⟨fun hc => s0 _ (moduleGroups_weight_mem_pg0 m a0 a1 a2 hma i hw hc),
           fun hc => s1 _ (moduleGroups_weight_mem_pg1 m a0 a1 a2 hma i hw hc)⟩

/-- Witness for the partition theorem on the two-module sample model. -/
theorem get_optimizer_groups_partition_witness :
    sampleState.model = some ⟨0, sampleModules⟩ ∧
    sampleState.optimizer = none ∧
    (∀ m ∈ sampleModules, m.otherParams = []) ∧
    (∀ m ∈ sampleModules, (m.isBatchNorm2d || pySubstr "bn" m.name) = true →
      m.weightAttr.isParam = true) ∧
    (∃ mb ∈ sampleModules, (mb.isBatchNorm2d || pySubstr "bn" mb.name) = true) ∧
    (allParams sampleModules).Nodup ∧
    (∃ o : OptimizerObj, (get_optimizer sampleState 8 1).2.2 = Except.ok o ∧
      (∀ p ∈ allParams sampleModules, ((o.pg0 ++ o.pg1 ++ o.pg2).count (some p)) = 1) ∧
      (∀ p : ℕ, some p ∈ o.pg0 ++ o.pg1 ++ o.pg2 → p ∈ allParams sampleModules) ∧
      (∀ m ∈ sampleModules, ∀ i : ℕ, m.biasAttr = PAttr.param i → some i ∈ o.pg2) ∧
      (∀ m ∈ sampleModules, ∀ i : ℕ, m.weightAttr = PAttr.param i →
        (((m.isBatchNorm2d || pySubstr "bn" m.name) = true → some i ∈ o.pg0) ∧
          ((m.isBatchNorm2d || pySubstr "bn" m.name) = false → some i ∈ o.pg1)))) :=
  ⟨rfl, rfl, by decide, by decide, by decide, by decide,
    get_optimizer_groups_partition sampleState ⟨0, sampleModules⟩ 8 1 rfl rfl
      (by decide) (by decide) (by decide) (by decide)⟩

/-- Witness for the `preprocess` scaling theorem at `tsize = (256, 320)` on
the default configuration. -/
theorem preprocess_scale_correct_witness :
    0 < ExpState.fresh.hyper.input_size.1 ∧
    0 < ExpState.fresh.hyper.input_size.2 ∧
    ((256, 320).1 ≠ ExpState.fresh.hyper.input_size.1 ∨
      (256, 320).2 ≠ ExpState.fresh.hyper.input_size.2) ∧
    ((preprocess ExpState.fresh (Tensor.raw 0) [[1, 2, 3, 4]] (256, 320)).2.1 =
        Tensor.interpolated (Tensor.raw 0) (256, 320) ∧
      ∀ r i : ℕ, ∀ row : List ℚ, ∀ t : ℚ,
        ([[1, 2, 3, 4]] : List (List ℚ))[r]? = some row → row[i]? = some t →
        ∃ row2 : List ℚ,
          ((preprocess ExpState.fresh (Tensor.raw 0) [[1, 2, 3, 4]] (256, 320)).2.2)[r]? =
              some row2 ∧
          row2[i]? = some (if i < 2 then t
            else if i % 2 = 0 then
              t * (((256, 320).2 : ℚ) / (ExpState.fresh.hyper.input_size.2 : ℚ))
            else
              t * (((256, 320).1 : ℚ) / (ExpState.fresh.hyper.input_size.1 : ℚ)))) :=
  ⟨by decide, by decide, Or.inl (by decide),
    preprocess_scale_correct ExpState.fresh (Tensor.raw 0) [[1, 2, 3, 4]]
      (256, 320) (by decide) (by decide) (Or.inl (by decide))⟩
